import Mathlib

/-!
# Verification of the `@mladovic/storage` value codec

A shallow embedding of the repository's serializer (`src/core/serializer.ts`),
classifier (`src/validation.ts`) and error taxonomy (`src/errors.ts`), with
theorems settling the specification's claims.

Modelling conventions:

* JavaScript runtime values are the inductive `JSValue`; parsed JSON documents
  are the inductive `Json`.  JS numbers are modelled as integers (`Int`);
  floating-point behaviour is outside the scope of every claim.
* The text boundary (`JSON.stringify` / `JSON.parse`) is modelled by its
  result: `Serializer.serialize` produces the `Json` tree that
  `JSON.parse (JSON.stringify envelope)` would yield, and
  `Serializer.deserialize` consumes `Option Json`, where `none` stands for a
  syntax-level parse failure of the input text.
* Byte sequences (`ArrayBuffer` contents, `Blob`/`File` payloads, binary
  strings handed to `btoa`/`atob`) are `List (Fin 256)`.
* Thrown exceptions are `Except` values; `JsError` distinguishes the
  repository's `StorageError` from native platform errors (`TypeError`,
  `RangeError`, `InvalidCharacterError`), which the code treats differently.
-/

/-- Error codes of the taxonomy, from `src/types.ts` (`StorageErrorCode`). -/
inductive StorageErrorCode where
  | STORAGE_UNAVAILABLE
  | QUOTA_EXCEEDED
  | INVALID_VALUE
  | OPERATION_FAILED
  | TIMEOUT
  | CORRUPTION
  | VERSION_MISMATCH
deriving DecidableEq, Repr

/-- A backend-native failure: JS `Error` objects are identified by their
`name` and carry a `message`. -/
structure NativeError where
  name : String
  message : String
deriving DecidableEq, Repr

/-- Diagnostic context map attached to some errors
(`Record<string, unknown>`; the values are never interpreted, we keep them as
strings). -/
def ErrCtx := List (String × String)
deriving DecidableEq

/-- `StorageError` from `src/errors.ts`: code, message, optional context and
an optional reference to the causing native failure. -/
structure StorageError where
  code : StorageErrorCode
  message : String
  context : Option ErrCtx := none
  originalError : Option NativeError := none
deriving DecidableEq

/-- An exception as thrown by the modelled code: either a `StorageError` or a
native platform error identified by its name. -/
inductive JsError where
  | storage (e : StorageError)
  | native (name : String)
deriving DecidableEq

/-- `StorageError.fromNativeError` from `src/errors.ts`: total mapping from a
native failure to exactly one taxonomy code. -/
def StorageError.fromNativeError (error : NativeError) (context : Option ErrCtx) :
    StorageError :=
  if error.name = "QuotaExceededError" then
    { code := .QUOTA_EXCEEDED
      message := "Storage quota exceeded. Consider clearing old data or using a smaller payload"
      context := context, originalError := some error }
  else if error.name = "TimeoutError" then
    { code := .TIMEOUT
      message := "Storage operation timed out after 5 seconds"
      context := context, originalError := some error }
  else if error.name = "VersionError" then
    { code := .VERSION_MISMATCH
      message := "Database version conflict. Close other tabs or refresh the page"
      context := context, originalError := some error }
  else if error.name = "InvalidStateError" ∨ error.name = "UnknownError" ∨
      error.name = "NotFoundError" then
    { code := .OPERATION_FAILED
      message := "Storage operation failed: " ++ error.message
      context := context, originalError := some error }
  else
    { code := .OPERATION_FAILED
      message := "Storage operation failed: " ++ error.message
      context := context, originalError := some error }

/-- `StorageErrors.invalidValue` factory from `src/errors.ts`. -/
def StorageErrors.invalidValue (type : String) : StorageError :=
  { code := .INVALID_VALUE
    message := "Cannot store value of type \"" ++ type ++
      "\". Supported types: primitives, objects, arrays, Date, RegExp, Blob, File, ArrayBuffer, TypedArrays" }

/-- `StorageErrors.invalidKey` factory from `src/errors.ts`. -/
def StorageErrors.invalidKey (reason : String) : StorageError :=
  { code := .INVALID_VALUE, message := "Invalid key: " ++ reason }

/-- A valid JS `Date`, broken down into its UTC fields (the fields are exactly
what `toISOString` prints and are in bijection with the millisecond instant).
`JsDate.validB` marks the combinations representable by a four-digit-year
ISO-8601 string. -/
structure JsDate where
  year : Nat
  month : Nat
  day : Nat
  hour : Nat
  minute : Nat
  second : Nat
  millis : Nat
deriving DecidableEq, Repr

/-- Field bounds of a four-digit-year UTC instant. -/
def JsDate.validB (d : JsDate) : Bool :=
  decide (d.year ≤ 9999) && decide (1 ≤ d.month) && decide (d.month ≤ 12) &&
  decide (1 ≤ d.day) && decide (d.day ≤ 31) && decide (d.hour < 24) &&
  decide (d.minute < 60) && decide (d.second < 60) && decide (d.millis < 1000)

/-- A parsed JSON document, the possible results of `JSON.parse`.
Numbers are modelled as integers. -/
inductive Json where
  | jnull
  | jbool (b : Bool)
  | jnum (n : Int)
  | jstr (s : String)
  | jarr (elems : List Json)
  | jobj (fields : List (String × Json))

/-- A JS number: a finite value (modelled as an integer; fractional
floating-point behaviour is outside every claim) or one of the non-finite
values `NaN`, `Infinity` and `-Infinity`, which `typeof` still calls
`"number"` but `JSON.stringify` renders as `null`. -/
inductive JsNumber where
  | finite (n : Int)
  | nan
  | inf
  | negInf
deriving DecidableEq, Repr

/-- A JavaScript runtime value, covering every shape the classifier
distinguishes.  `vinstance ctor` is a class-instance object (e.g. a `Map` or
`Set`) whose prototype is not the base object prototype; `vtypedarray` is any
`ArrayBuffer.isView` value, carrying its underlying buffer's bytes, its byte
offset and byte length, and its constructor name. `vinvalidDate` is an
Invalid Date (a `Date` whose time value is NaN). -/
inductive JSValue where
  | vnull
  | vundefined
  | vstr (s : String)
  | vnum (n : JsNumber)
  | vbool (b : Bool)
  | vdate (d : JsDate)
  | vinvalidDate
  | vregexp (source : String) (flags : String)
  | vblob (bytes : List (Fin 256)) (type : String)
  | vfile (bytes : List (Fin 256)) (name : String) (type : String) (lastModified : Int)
  | varraybuffer (bytes : List (Fin 256))
  | vtypedarray (buffer : List (Fin 256)) (byteOffset : Nat) (byteLength : Nat)
      (ctorName : String)
  | varr (elems : List JSValue)
  | vobj (fields : List (String × JSValue))
  | vfunction
  | vsymbol
  | vinstance (ctorName : String)

/-- JS `typeof` applied to a modelled value (note `typeof null` is
`"object"`). -/
def typeofName : JSValue → String
  | .vnull => "object"
  | .vundefined => "undefined"
  | .vstr _ => "string"
  | .vnum _ => "number"
  | .vbool _ => "boolean"
  | .vfunction => "function"
  | .vsymbol => "symbol"
  | _ => "object"

/-- `isPlainObject` from `src/validation.ts`: an object whose prototype is the
base object prototype or null.  In the model only `vobj` values have that
prototype; class instances are `vinstance`. -/
def isPlainObject : JSValue → Bool
  | .vobj _ => true
  | _ => false

/-- `getTypeName` from `src/validation.ts`: the diagnostic type label. -/
def getTypeName : JSValue → String
  | .vnull => "null"
  | .vundefined => "undefined"
  | .varr _ => "Array"
  | .vdate _ => "Date"
  | .vinvalidDate => "Date"
  | .vregexp _ _ => "RegExp"
  | .vfile _ _ _ _ => "File"
  | .vblob _ _ => "Blob"
  | .varraybuffer _ => "ArrayBuffer"
  | .vtypedarray _ _ _ ctor => ctor
  | .vobj _ => "Object"
  | .vinstance ctor => ctor
  | v => typeofName v

mutual

/-- `isSerializable` from `src/validation.ts`: membership in the supported
type set, recursing through arrays and plain objects. -/
def isSerializable : JSValue → Bool
  | .vnull => true
  | .vundefined => true
  | .vstr _ => true
  | .vnum _ => true
  | .vbool _ => true
  | .vdate _ => true
  | .vinvalidDate => true
  | .vregexp _ _ => true
  | .vblob _ _ => true
  | .vfile _ _ _ _ => true
  | .varraybuffer _ => true
  | .vtypedarray _ _ _ _ => true
  | .varr xs => isSerializableList xs
  | .vobj fs => isSerializableFields fs
  | .vfunction => false
  | .vsymbol => false
  | .vinstance _ => false

/-- `value.every((item) => isSerializable(item))` over an array's elements. -/
def isSerializableList : List JSValue → Bool
  | [] => true
  | x :: xs => isSerializable x && isSerializableList xs

/-- `Object.values(value).every((item) => isSerializable(item))` over a
record's values. -/
def isSerializableFields : List (String × JSValue) → Bool
  | [] => true
  | (_, x) :: fs => isSerializable x && isSerializableFields fs

end

/-- `validateKey` from `src/validation.ts`.  String length is modelled by
`String.length`. -/
def validateKey (key : JSValue) : Except StorageError Unit :=
  match key with
  | .vstr s =>
    if s.length = 0 then
      .error (StorageErrors.invalidKey "Key cannot be empty")
    else if s.length > 1000 then
      .error (StorageErrors.invalidKey
        ("Key too long (" ++ toString s.length ++ " characters). Maximum is 1000 characters"))
    else
      .ok ()
  | k =>
    .error (StorageErrors.invalidKey ("Key must be a string, got " ++ typeofName k))

/-- The standard base64 alphabet, in index order. -/
def b64Alphabet : List Char :=
  ['A','B','C','D','E','F','G','H','I','J','K','L','M','N','O','P',
   'Q','R','S','T','U','V','W','X','Y','Z',
   'a','b','c','d','e','f','g','h','i','j','k','l','m','n','o','p',
   'q','r','s','t','u','v','w','x','y','z',
   '0','1','2','3','4','5','6','7','8','9','+','/']

/-- Index of a character in a list, or `none`. -/
def charIdx (c : Char) : List Char → Option Nat
  | [] => none
  | a :: rest => if a = c then some 0 else (charIdx c rest).map (· + 1)

/-- The alphabet character for a sextet value (`< 64`). -/
def encSextet (n : Nat) : Char := b64Alphabet.getD n 'A'

/-- The sextet value of an alphabet character (`none` for characters outside
the alphabet, in particular for `'='`). -/
def b64SextetOf (c : Char) : Option Nat :=
  (charIdx c b64Alphabet).bind fun n => if n < 64 then some n else none

/-- Build a byte from an assembled value known to be below 256
(the reduction is the identity on all values this file feeds it). -/
def mkByte (n : Nat) : Fin 256 := ⟨n % 256, Nat.mod_lt _ (by omega)⟩

/-- `btoa` on a binary string, grouped three input bytes to four output
characters, RFC 4648 padding included.  Characters of the binary string are
identified with their (sub-256) char codes. -/
def btoaChunks : List (Fin 256) → List Char
  | [] => []
  | [b1] =>
    [encSextet (b1.val / 4), encSextet (b1.val % 4 * 16), '=', '=']
  | [b1, b2] =>
    [encSextet (b1.val / 4), encSextet (b1.val % 4 * 16 + b2.val / 16),
     encSextet (b2.val % 16 * 4), '=']
  | b1 :: b2 :: b3 :: rest =>
    encSextet (b1.val / 4) :: encSextet (b1.val % 4 * 16 + b2.val / 16) ::
    encSextet (b2.val % 16 * 4 + b3.val / 64) :: encSextet (b3.val % 64) ::
    btoaChunks rest

/-- The unpadded base64 text of a byte sequence (proof scaffolding relating
`btoaChunks` to `atobDecode`). -/
def btoaCore : List (Fin 256) → List Char
  | [] => []
  | [b1] =>
    [encSextet (b1.val / 4), encSextet (b1.val % 4 * 16)]
  | [b1, b2] =>
    [encSextet (b1.val / 4), encSextet (b1.val % 4 * 16 + b2.val / 16),
     encSextet (b2.val % 16 * 4)]
  | b1 :: b2 :: b3 :: rest =>
    encSextet (b1.val / 4) :: encSextet (b1.val % 4 * 16 + b2.val / 16) ::
    encSextet (b2.val % 16 * 4 + b3.val / 64) :: encSextet (b3.val % 64) ::
    btoaCore rest

/-- Padding removal of forgiving-base64 decoding: when the input length is a
multiple of four, up to two trailing `'='` are discarded. -/
def stripPad (l : List Char) : List Char :=
  if l.length % 4 = 0 then
    if l.getLast? = some '=' then
      if l.dropLast.getLast? = some '=' then l.dropLast.dropLast else l.dropLast
    else l
  else l

/-- Forgiving-base64 decoding after padding removal: full four-character
groups yield three bytes; a trailing group of two or three characters yields
one or two bytes (left-over bits are discarded); a trailing single character,
or any character outside the alphabet, is an error. -/
def atobDecode : List Char → Option (List (Fin 256))
  | [] => some []
  | [c1, c2] =>
    match b64SextetOf c1, b64SextetOf c2 with
    | some s1, some s2 => some [mkByte (s1 * 4 + s2 / 16)]
    | _, _ => none
  | [c1, c2, c3] =>
    match b64SextetOf c1, b64SextetOf c2, b64SextetOf c3 with
    | some s1, some s2, some s3 =>
      some [mkByte (s1 * 4 + s2 / 16), mkByte (s2 % 16 * 16 + s3 / 4)]
    | _, _, _ => none
  | c1 :: c2 :: c3 :: c4 :: rest =>
    match b64SextetOf c1, b64SextetOf c2, b64SextetOf c3, b64SextetOf c4 with
    | some s1, some s2, some s3, some s4 =>
      match atobDecode rest with
      | some bs =>
        some (mkByte (s1 * 4 + s2 / 16) :: mkByte (s2 % 16 * 16 + s3 / 4) ::
              mkByte (s3 % 4 * 64 + s4) :: bs)
      | none => none
    | _, _, _, _ => none
  | [_] => none

/-- `atob`: forgiving-base64 decode of a text, `none` modelling the thrown
`InvalidCharacterError`.  (ASCII-whitespace stripping of the platform
algorithm is not modelled; no claim involves whitespace.)  The decoded binary
string is identified with its list of char codes. -/
def atob (s : String) : Option (List (Fin 256)) :=
  atobDecode (stripPad s.toList)

/-- `btoa`: base64 text of a binary string (modelled on byte lists, which are
exactly the binary strings the serializer ever passes to it). -/
def btoa (bytes : List (Fin 256)) : String :=
  String.mk (btoaChunks bytes)

/-- `Serializer.arrayBufferToBase64`: builds a binary string from the bytes
via `String.fromCharCode` and feeds it to `btoa`; the intermediate binary
string is identified with the byte list. -/
def Serializer.arrayBufferToBase64 (bytes : List (Fin 256)) : String :=
  btoa bytes

/-- `Serializer.base64ToArrayBuffer`: `atob`, then `charCodeAt` per character;
`none` models the propagated `InvalidCharacterError`. -/
def Serializer.base64ToArrayBuffer (base64 : String) : Option (List (Fin 256)) :=
  atob base64

/-- `Serializer.blobToBase64`: reads the blob's bytes through a `FileReader`
data URL and keeps the part after the comma, i.e. the base64 text of the
bytes.  An empty blob yields `"data:<mime>;base64,"`, whose payload after the
comma is the empty string — falsy — so the source rejects with a plain
`Error` (`'Failed to convert Blob to base64'`). -/
def Serializer.blobToBase64 (bytes : List (Fin 256)) : Except JsError String :=
  if bytes.isEmpty then .error (.native "Error")
  else .ok (btoa bytes)

/-- The ASCII digit for a value below ten (48 is the code of `'0'`). -/
def digitChar (d : Nat) : Char :=
  Char.ofNat (48 + min d 9)

/-- The value of an ASCII digit. -/
def readDigit (c : Char) : Option Nat :=
  if 48 ≤ c.toNat ∧ c.toNat ≤ 57 then some (c.toNat - 48) else none

/-- `n` printed as exactly `w` decimal digits, zero-padded (most significant
first; faithful for `n < 10 ^ w`). -/
def padDigits : Nat → Nat → List Char
  | 0, _ => []
  | w + 1, n => digitChar (n / 10 ^ w) :: padDigits w (n % 10 ^ w)

/-- Consume exactly `w` decimal digits, accumulating their value onto `acc`,
and return the remaining characters. -/
def parseDigits : Nat → Nat → List Char → Option (Nat × List Char)
  | 0, acc, l => some (acc, l)
  | _ + 1, _, [] => none
  | w + 1, acc, c :: l =>
    match readDigit c with
    | some d => parseDigits w (acc * 10 + d) l
    | none => none

/-- Consume one expected literal character. -/
def expectChar (c : Char) : List Char → Option (List Char)
  | c' :: rest => if c' = c then some rest else none
  | [] => none

/-- The characters of `Date.prototype.toISOString` for a four-digit-year UTC
instant: `YYYY-MM-DDTHH:mm:ss.sssZ`. -/
def isoChars (d : JsDate) : List Char :=
  padDigits 4 d.year ++ '-' ::
  (padDigits 2 d.month ++ '-' ::
  (padDigits 2 d.day ++ 'T' ::
  (padDigits 2 d.hour ++ ':' ::
  (padDigits 2 d.minute ++ ':' ::
  (padDigits 2 d.second ++ '.' ::
  (padDigits 3 d.millis ++ ['Z']))))))

/-- `Date.prototype.toISOString` (platform builtin used by
`createEnvelope`). -/
def toISOString (d : JsDate) : String :=
  String.mk (isoChars d)

/-- Parse the `toISOString` format back into its fields, rejecting
out-of-range fields the way `new Date` yields an Invalid Date for them. -/
def parseIsoChars (l : List Char) : Option JsDate :=
  match parseDigits 4 0 l with
  | none => none
  | some (y, l) =>
  match expectChar '-' l with
  | none => none
  | some l =>
  match parseDigits 2 0 l with
  | none => none
  | some (mo, l) =>
  match expectChar '-' l with
  | none => none
  | some l =>
  match parseDigits 2 0 l with
  | none => none
  | some (da, l) =>
  match expectChar 'T' l with
  | none => none
  | some l =>
  match parseDigits 2 0 l with
  | none => none
  | some (h, l) =>
  match expectChar ':' l with
  | none => none
  | some l =>
  match parseDigits 2 0 l with
  | none => none
  | some (mi, l) =>
  match expectChar ':' l with
  | none => none
  | some l =>
  match parseDigits 2 0 l with
  | none => none
  | some (s, l) =>
  match expectChar '.' l with
  | none => none
  | some l =>
  match parseDigits 3 0 l with
  | none => none
  | some (ms, l) =>
  match expectChar 'Z' l with
  | none => none
  | some l =>
  match l with
  | [] =>
    let d : JsDate := ⟨y, mo, da, h, mi, s, ms⟩
    if d.validB then some d else none
  | _ => none

/-- Platform `Date` parsing, modelled on the ISO format that `toISOString`
emits (the only format the serializer ever round-trips). -/
def parseISODate (s : String) : Option JsDate :=
  parseIsoChars s.toList

/-- Gregorian fields of a non-negative epoch-millisecond count
(days-to-civil conversion; executable model of `new Date(number)`). -/
def dateFromMillisNat (n : Nat) : JsDate :=
  let ms := n % 1000
  let totalSecs := n / 1000
  let s := totalSecs % 60
  let totalMins := totalSecs / 60
  let mi := totalMins % 60
  let totalHours := totalMins / 60
  let h := totalHours % 24
  let days := totalHours / 24
  let z := days + 719468
  let era := z / 146097
  let doe := z % 146097
  let yoe := (doe - doe / 1460 + doe / 36524 - doe / 146096) / 365
  let y := yoe + era * 400
  let doy := doe - (365 * yoe + yoe / 4 - yoe / 100)
  let mp := (5 * doy + 2) / 153
  let da := doy - (153 * mp + 2) / 5 + 1
  let mo := if mp < 10 then mp + 3 else mp - 9
  ⟨(if mo ≤ 2 then y + 1 else y), mo, da, h, mi, s, ms⟩

/-- `new Date(n)` for a numeric argument.  Model boundary: instants outside
0000-01-01..9999-12-31 (which `toISOString` would print with expanded years)
are collapsed to an Invalid Date; no claim reaches this branch. -/
def newDateFromMillis (n : Int) : JSValue :=
  if 0 ≤ n ∧ n ≤ 253402300799999 then .vdate (dateFromMillisNat n.toNat)
  else .vinvalidDate

/-- Property lookup on a parsed JSON object's field list.  `JSON.parse` keeps
the last occurrence of a duplicated key, so the scan prefers later entries. -/
def lookupLast : List (String × Json) → String → Option Json
  | [], _ => none
  | (k, v) :: fs, key =>
    match lookupLast fs key with
    | some w => some w
    | none => if k = key then some v else none

/-- Property access `j.key` on a non-null parsed value: a field of an object,
`undefined` (`none`) on every other shape.  (Access on `null` throws; callers
handle that case first.) -/
def getPropD (j : Json) (key : String) : Option Json :=
  match j with
  | .jobj fs => lookupLast fs key
  | _ => none

mutual

/-- JS `String(x)` coercion of a parsed JSON value, as used in the
serializer's diagnostic messages and by `atob`'s argument coercion. -/
def jsonToDisplay : Json → String
  | .jnull => "null"
  | .jbool true => "true"
  | .jbool false => "false"
  | .jnum n => toString n
  | .jstr s => s
  | .jarr xs => jsonListDisplay xs
  | .jobj _ => "[object Object]"

/-- `Array.prototype.toString`: elements joined by commas, `null` printing as
the empty string. -/
def jsonListDisplay : List Json → String
  | [] => ""
  | [x] => jsonElemDisplay x
  | x :: xs => jsonElemDisplay x ++ "," ++ jsonListDisplay xs

/-- One array element under `Array.prototype.toString`. -/
def jsonElemDisplay : Json → String
  | .jnull => ""
  | x => jsonToDisplay x

end

/-- `String(x)` where `x` may be `undefined` (`none`). -/
def jsDisplay : Option Json → String
  | none => "undefined"
  | some j => jsonToDisplay j

/-- Enumerable index properties of a byte view, as `JSON.stringify` renders a
`Uint8Array` nested inside a container (`{"0": …, "1": …}`). -/
def indexedBytes (bs : List (Fin 256)) : List (String × Json) :=
  (bs.enum).map fun p => (toString p.1, Json.jnum p.2.val)

mutual

/-- The `Json` tree `JSON.stringify` produces for a JS value: `none` is an
omitted value (`undefined`/function/symbol).  `Date` stringifies through
`toJSON` to its ISO string (`null` for an Invalid Date); `RegExp`, `Blob`,
`File`, `ArrayBuffer`, `Map`/`Set` and other instances have no enumerable own
properties and stringify to `{}`.  Model boundary: a nested byte view
stringifies to its indexed elements only for one-byte-per-element views,
other element widths are rendered as `{}` (no claim nests such a view). -/
def jsonOfValue : JSValue → Option Json
  | .vnull => some .jnull
  | .vundefined => none
  | .vstr s => some (.jstr s)
  | .vnum (.finite n) => some (.jnum n)
  | .vnum _ => some .jnull
  | .vbool b => some (.jbool b)
  | .vdate d => some (.jstr (toISOString d))
  | .vinvalidDate => some .jnull
  | .vregexp _ _ => some (.jobj [])
  | .vblob _ _ => some (.jobj [])
  | .vfile _ _ _ _ => some (.jobj [])
  | .varraybuffer _ => some (.jobj [])
  | .vtypedarray buf off len ctor =>
    some (if ctor = "Uint8Array" ∨ ctor = "Uint8ClampedArray" then
      .jobj (indexedBytes ((buf.drop off).take len))
    else .jobj [])
  | .varr xs => some (.jarr (jsonOfList xs))
  | .vobj fs => some (.jobj (jsonOfFields fs))
  | .vfunction => none
  | .vsymbol => none
  | .vinstance _ => some (.jobj [])

/-- Array elements under `JSON.stringify`: omitted values become `null`. -/
def jsonOfList : List JSValue → List Json
  | [] => []
  | x :: xs => (jsonOfValue x).getD .jnull :: jsonOfList xs

/-- Record fields under `JSON.stringify`: omitted values drop their key. -/
def jsonOfFields : List (String × JSValue) → List (String × Json)
  | [] => []
  | (k, x) :: fs =>
    match jsonOfValue x with
    | some j => (k, j) :: jsonOfFields fs
    | none => jsonOfFields fs

end

mutual

/-- The JS value a parsed JSON subtree denotes (used where `extractValue`
returns `data` as-is). -/
def valueOfJson : Json → JSValue
  | .jnull => .vnull
  | .jbool b => .vbool b
  | .jnum n => .vnum (.finite n)
  | .jstr s => .vstr s
  | .jarr xs => .varr (valueOfJsonList xs)
  | .jobj fs => .vobj (valueOfJsonFields fs)

/-- Elementwise `valueOfJson`. -/
def valueOfJsonList : List Json → List JSValue
  | [] => []
  | x :: xs => valueOfJson x :: valueOfJsonList xs

/-- Fieldwise `valueOfJson`. -/
def valueOfJsonFields : List (String × Json) → List (String × JSValue)
  | [] => []
  | (k, x) :: fs => (k, valueOfJson x) :: valueOfJsonFields fs

end

/-- The envelope record (`SerializedValue` from `src/types.ts`): format
version, type tag, tag-specific payload and optional metadata. -/
structure Envelope where
  __v : Int
  __t : String
  data : JSValue
  meta : Option (List (String × JSValue))

/-- `Serializer.serializeArrayBuffer`: base64 payload plus byte-length
metadata. -/
def Serializer.serializeArrayBuffer (bytes : List (Fin 256)) : Envelope :=
  { __v := 1, __t := "arraybuffer"
    data := .vstr (Serializer.arrayBufferToBase64 bytes)
    meta := some [("byteLength", .vnum (.finite bytes.length))] }

/-- `Serializer.serializeTypedArray`: slice the view's own byte range
(`buffer.slice(byteOffset, byteOffset + byteLength)`) and encode it like an
`ArrayBuffer`. -/
def Serializer.serializeTypedArray (buffer : List (Fin 256))
    (byteOffset byteLength : Nat) : Envelope :=
  Serializer.serializeArrayBuffer ((buffer.drop byteOffset).take byteLength)

/-- `Serializer.serializeBlob`: base64 payload plus mime type and size; the
`blobToBase64` rejection for an empty payload propagates. -/
def Serializer.serializeBlob (bytes : List (Fin 256)) (type : String) :
    Except JsError Envelope :=
  match Serializer.blobToBase64 bytes with
  | .error e => .error e
  | .ok base64 =>
    .ok { __v := 1, __t := "blob"
          data := .vstr base64
          meta := some [("type", .vstr type), ("size", .vnum (.finite bytes.length))] }

/-- `Serializer.serializeFile`: base64 payload plus name, mime type, size and
last-modified timestamp; the `blobToBase64` rejection for an empty payload
propagates. -/
def Serializer.serializeFile (bytes : List (Fin 256)) (name type : String)
    (lastModified : Int) : Except JsError Envelope :=
  match Serializer.blobToBase64 bytes with
  | .error e => .error e
  | .ok base64 =>
    .ok { __v := 1, __t := "file"
          data := .vstr base64
          meta := some [("name", .vstr name), ("type", .vstr type),
                        ("size", .vnum (.finite bytes.length)),
                        ("lastModified", .vnum (.finite lastModified))] }

/-- `Serializer.createEnvelope`: the twelve-way dispatch of `encode`, in the
source's test order.  `toISOString` on an Invalid Date throws a native
`RangeError`; the final branch is the unsupported-type failure. -/
def Serializer.createEnvelope : JSValue → Except JsError Envelope
  | .vnull => .ok { __v := 1, __t := "null", data := .vnull, meta := none }
  | .vundefined => .ok { __v := 1, __t := "undefined", data := .vnull, meta := none }
  | .vstr s => .ok { __v := 1, __t := "string", data := .vstr s, meta := none }
  | .vnum n => .ok { __v := 1, __t := "number", data := .vnum n, meta := none }
  | .vbool b => .ok { __v := 1, __t := "boolean", data := .vbool b, meta := none }
  | .vdate d => .ok { __v := 1, __t := "date", data := .vstr (toISOString d), meta := none }
  | .vinvalidDate => .error (.native "RangeError")
  | .vregexp src flags =>
    .ok { __v := 1, __t := "regexp", data := .vstr src
          meta := some [("flags", .vstr flags)] }
  | .vfile bytes name type lastModified =>
    Serializer.serializeFile bytes name type lastModified
  | .vblob bytes type => Serializer.serializeBlob bytes type
  | .varraybuffer bytes => .ok (Serializer.serializeArrayBuffer bytes)
  | .vtypedarray buf off len _ => .ok (Serializer.serializeTypedArray buf off len)
  | .varr xs => .ok { __v := 1, __t := "array", data := .varr xs, meta := none }
  | .vobj fs => .ok { __v := 1, __t := "object", data := .vobj fs, meta := none }
  | v => .error (.storage (StorageErrors.invalidValue (getTypeName v)))

/-- `JSON.stringify` of an envelope, as the `Json` tree the text parses back
to.  Field insertion order is `__v`, `__t`, `data`, `meta`; an absent `meta`
is omitted. -/
def envelopeJson (e : Envelope) : Json :=
  .jobj ([("__v", .jnum e.__v), ("__t", .jstr e.__t)]
    ++ (match jsonOfValue e.data with
        | some j => [("data", j)]
        | none => [])
    ++ (match e.meta with
        | some m => [("meta", .jobj (jsonOfFields m))]
        | none => []))

/-- `Serializer.serialize`: classifier gate, envelope creation, and the
stringify boundary (represented by the parsed image of the produced text). -/
def Serializer.serialize (value : JSValue) : Except JsError Json :=
  if isSerializable value then
    (Serializer.createEnvelope value).map envelopeJson
  else
    .error (.storage (StorageErrors.invalidValue (getTypeName value)))

/-- Strict-equality test `envelope.__v === 1` (against the number `1`). -/
def isVersion1 : Option Json → Bool
  | some (.jnum n) => decide (n = 1)
  | _ => false

/-- `data` returned as-is (`return data as T`); an absent property is
`undefined`. -/
def dataAsValue : Option Json → JSValue
  | none => .vundefined
  | some d => valueOfJson d

/-- Optional chaining `meta?.key`: a field of an object-shaped `meta`,
`undefined` otherwise (including `meta` being `null` or absent). -/
def metaField (meta : Option Json) (key : String) : Option Json :=
  match meta with
  | some (.jobj fs) => lookupLast fs key
  | _ => none

/-- `new RegExp(pattern, …).source` for the decoded `data`: an absent pattern
or empty string yields the empty-match source `"(?:)"`; non-strings coerce
via `String(x)`. -/
def regexpSourceOf : Option Json → String
  | none => "(?:)"
  | some (.jstr s) => if s = "" then "(?:)" else s
  | some j => jsonToDisplay j

/-- `meta?.flags` as the flags argument: absent flags give a flagless
regexp. -/
def metaFlags (meta : Option Json) : String :=
  match metaField meta "flags" with
  | none => ""
  | some (.jstr f) => f
  | some j => jsonToDisplay j

/-- `meta?.type`, then the `type || ''` default of `base64ToBlob` (falsy
values collapse to the empty string). -/
def metaTypeOf (meta : Option Json) : String :=
  match metaField meta "type" with
  | some (.jstr s) => s
  | some (.jnum n) => if n = 0 then "" else toString n
  | some (.jbool true) => "true"
  | some (.jarr xs) => jsonListDisplay xs
  | some (.jobj _) => "[object Object]"
  | _ => ""

/-- `meta?.name` coerced by the `File` constructor (an absent name stringifies
to `"undefined"`). -/
def metaNameOf (meta : Option Json) : String :=
  match metaField meta "name" with
  | some (.jstr s) => s
  | none => "undefined"
  | some j => jsonToDisplay j

/-- `meta?.lastModified` as a number.  Model boundary: a missing timestamp
defaults to `Date.now()` in the platform; the model uses `0` (no claim
reaches this branch). -/
def metaLastModifiedOf (meta : Option Json) : Int :=
  match metaField meta "lastModified" with
  | some (.jnum n) => n
  | _ => 0

/-- `new Date(data as string)` on the decoded payload: ISO strings parse to
their instant, unparseable strings give an Invalid Date, and non-string
payloads follow the numeric/primitive coercions of the `Date`
constructor. -/
def newDateOf : Option Json → JSValue
  | some (.jstr s) =>
    match parseISODate s with
    | some d => .vdate d
    | none => .vinvalidDate
  | some (.jnum n) => newDateFromMillis n
  | some .jnull => newDateFromMillis 0
  | some (.jbool b) => newDateFromMillis (if b then 1 else 0)
  | _ => .vinvalidDate

/-- The tag string a parsed `__t` value matches in the switch (`none` when
`__t` is absent or not a string, in which case no case label can match). -/
def tagStringOf : Option Json → Option String
  | some (.jstr s) => some s
  | _ => none

/-- `Serializer.extractValue`: version validation, then the tag switch
(a `switch` over `===` on the case labels, rendered as an equality chain).
Property access on a parsed `null` throws a native `TypeError`; a version
other than the number `1` and an unrecognized tag throw `CORRUPTION`
`StorageError`s; the binary tags run `atob`, whose failure is a native
`InvalidCharacterError`. -/
def Serializer.extractValue (j : Json) : Except JsError JSValue :=
  match j with
  | .jnull => .error (.native "TypeError")
  | _ =>
    let v := getPropD j "__v"
    if isVersion1 v then
      let t := getPropD j "__t"
      let data := getPropD j "data"
      let meta := getPropD j "meta"
      let tag := tagStringOf t
      if tag = some "null" then .ok .vnull
      else if tag = some "undefined" then .ok .vundefined
      else if tag = some "string" ∨ tag = some "number" ∨ tag = some "boolean" ∨
          tag = some "object" ∨ tag = some "array" then .ok (dataAsValue data)
      else if tag = some "date" then .ok (newDateOf data)
      else if tag = some "regexp" then .ok (.vregexp (regexpSourceOf data) (metaFlags meta))
      else if tag = some "blob" then
        match atob (jsDisplay data) with
        | some bytes => .ok (.vblob bytes (metaTypeOf meta))
        | none => .error (.native "InvalidCharacterError")
      else if tag = some "file" then
        match atob (jsDisplay data) with
        | some bytes =>
          .ok (.vfile bytes (metaNameOf meta) (metaTypeOf meta) (metaLastModifiedOf meta))
        | none => .error (.native "InvalidCharacterError")
      else if tag = some "arraybuffer" then
        match atob (jsDisplay data) with
        | some bytes => .ok (.varraybuffer bytes)
        | none => .error (.native "InvalidCharacterError")
      else
        .error (.storage { code := .CORRUPTION,
                           message := "Unknown type in envelope: " ++ jsDisplay t })
    else
      .error (.storage { code := .CORRUPTION,
                         message := "Unsupported envelope format version: " ++ jsDisplay v })

/-- `Serializer.deserialize`: the `try`/`catch` around parse-and-extract.
`parsed` is the `JSON.parse` outcome (`none` = syntax failure).  A
`StorageError` re-throws; any other failure — syntax errors included — is
swallowed into a returned `null`. -/
def Serializer.deserialize (parsed : Option Json) : Except StorageError JSValue :=
  match parsed with
  | none => .ok .vnull
  | some j =>
    match Serializer.extractValue j with
    | .ok v => .ok v
    | .error (.storage e) => .error e
    | .error (.native _) => .ok .vnull

/-- `decode ∘ encode` as one function: the decoded value, or `none` when
either direction fails. -/
def roundTrip (v : JSValue) : Option JSValue :=
  match Serializer.serialize v with
  | .ok j =>
    match Serializer.deserialize (some j) with
    | .ok w => some w
    | .error _ => none
  | .error _ => none

/-- The closed tag vocabulary of the envelope format. -/
def tagList : List String :=
  ["null", "undefined", "string", "number", "boolean", "object", "array",
   "date", "regexp", "blob", "file", "arraybuffer"]

/-- Does a result fail with an `INVALID_VALUE` `StorageError`? -/
def failsInvalidValue {α : Type} : Except JsError α → Bool
  | .error (.storage se) => se.code == .INVALID_VALUE
  | _ => false

mutual

/-- Plain JSON data: values whose `JSON.stringify` image denotes them back
exactly (null, strings, finite numbers, booleans, and arrays/plain records of
such; non-finite numbers stringify to `null` and are excluded). -/
def isJsonPlain : JSValue → Bool
  | .vnull => true
  | .vstr _ => true
  | .vnum (.finite _) => true
  | .vbool _ => true
  | .varr xs => isJsonPlainList xs
  | .vobj fs => isJsonPlainFields fs
  | _ => false

/-- Elementwise `isJsonPlain`. -/
def isJsonPlainList : List JSValue → Bool
  | [] => true
  | x :: xs => isJsonPlain x && isJsonPlainList xs

/-- Fieldwise `isJsonPlain`. -/
def isJsonPlainFields : List (String × JSValue) → Bool
  | [] => true
  | (_, x) :: fs => isJsonPlain x && isJsonPlainFields fs

end

theorem b64SextetOf_encSextet : ∀ n < 64, b64SextetOf (encSextet n) = some n := by decide

theorem encSextet_ne_pad : ∀ n < 64, encSextet n ≠ '=' := by decide

theorem atobDecode_btoaCore : ∀ bs : List (Fin 256), atobDecode (btoaCore bs) = some bs
  | [] => rfl
  | [b1] => by
    have h1 : b1.val < 256 := b1.isLt
    simp only [btoaCore, atobDecode,
      b64SextetOf_encSextet (b1.val / 4) (by omega),
      b64SextetOf_encSextet (b1.val % 4 * 16) (by omega),
      Option.some.injEq, List.cons.injEq, and_true]
    apply Fin.ext
    simp only [mkByte]
    omega
  | [b1, b2] => by
    have h1 : b1.val < 256 := b1.isLt
    have h2 : b2.val < 256 := b2.isLt
    simp only [btoaCore, atobDecode,
      b64SextetOf_encSextet (b1.val / 4) (by omega),
      b64SextetOf_encSextet (b1.val % 4 * 16 + b2.val / 16) (by omega),
      b64SextetOf_encSextet (b2.val % 16 * 4) (by omega),
      Option.some.injEq, List.cons.injEq, and_true]
    constructor
    · apply Fin.ext
      simp only [mkByte]
      omega
    · apply Fin.ext
      simp only [mkByte]
      omega
  | b1 :: b2 :: b3 :: rest => by
    have h1 : b1.val < 256 := b1.isLt
    have h2 : b2.val < 256 := b2.isLt
    have h3 : b3.val < 256 := b3.isLt
    simp only [btoaCore, atobDecode,
      b64SextetOf_encSextet (b1.val / 4) (by omega),
      b64SextetOf_encSextet (b1.val % 4 * 16 + b2.val / 16) (by omega),
      b64SextetOf_encSextet (b2.val % 16 * 4 + b3.val / 64) (by omega),
      b64SextetOf_encSextet (b3.val % 64) (by omega),
      atobDecode_btoaCore rest,
      Option.some.injEq, List.cons.injEq, and_true]
    refine ⟨?_, ?_, ?_⟩
    · apply Fin.ext
      simp only [mkByte]
      omega
    · apply Fin.ext
      simp only [mkByte]
      omega
    · apply Fin.ext
      simp only [mkByte]
      omega

theorem stripPad_append4 (c1 c2 c3 c4 : Char) (l : List Char) (hc : c4 ≠ '=') :
    stripPad (c1 :: c2 :: c3 :: c4 :: l) = c1 :: c2 :: c3 :: c4 :: stripPad l := by
  have hrw : c1 :: c2 :: c3 :: c4 :: l = [c1, c2, c3, c4] ++ l := rfl
  rw [hrw]
  unfold stripPad
  by_cases hlen : l.length % 4 = 0
  · have hlen4 : ([c1, c2, c3, c4] ++ l).length % 4 = 0 := by
      simp only [List.length_append, List.length_cons, List.length_nil]
      omega
    rw [if_pos hlen4, if_pos hlen]
    cases l with
    | nil =>
      simp [hc]
    | cons a as =>
      have hne : (a :: as) ≠ [] := by simp
      have hlen' : 4 ≤ (a :: as).length := by
        simp only [List.length_cons] at hlen ⊢
        omega
      have hdne : (a :: as).dropLast ≠ [] := by
        intro hcon
        have hl := congrArg List.length hcon
        simp only [List.length_dropLast, List.length_cons, List.length_nil] at hl
        simp only [List.length_cons] at hlen'
        omega
      obtain ⟨x, hx⟩ : ∃ x, (a :: as).getLast? = some x := by
        cases h : (a :: as).getLast? with
        | none => exact absurd (List.getLast?_eq_none_iff.mp h) hne
        | some x => exact ⟨x, rfl⟩
      rw [List.getLast?_append, hx, Option.or_some]
      by_cases hxe : x = '='
      · rw [if_pos (by rw [hxe]), List.dropLast_append_of_ne_nil _ hne]
        obtain ⟨y, hy⟩ : ∃ y, (a :: as).dropLast.getLast? = some y := by
          cases h : (a :: as).dropLast.getLast? with
          | none => exact absurd (List.getLast?_eq_none_iff.mp h) hdne
          | some y => exact ⟨y, rfl⟩
        rw [List.getLast?_append, hy, Option.or_some]
        by_cases hye : y = '='
        · rw [if_pos (by rw [hye]), List.dropLast_append_of_ne_nil _ hdne]
          simp [hxe, hye]
        · rw [if_neg (by simpa using hye)]
          simp [hxe, hye]
      · rw [if_neg (by simpa using hxe)]
        simp [hxe]
  · have hlen4 : ¬ ([c1, c2, c3, c4] ++ l).length % 4 = 0 := by
      simp only [List.length_append, List.length_cons, List.length_nil]
      omega
    rw [if_neg hlen4, if_neg hlen]
    rfl

theorem stripPad_btoaChunks : ∀ bs : List (Fin 256), stripPad (btoaChunks bs) = btoaCore bs
  | [] => rfl
  | [b1] => by
    simp [btoaChunks, btoaCore, stripPad, List.getLast?, List.dropLast]
  | [b1, b2] => by
    have h2 : b2.val < 256 := b2.isLt
    have hne := encSextet_ne_pad (b2.val % 16 * 4) (by omega)
    simp [btoaChunks, btoaCore, stripPad, List.getLast?, List.dropLast, hne]
  | b1 :: b2 :: b3 :: rest => by
    have h3 : b3.val < 256 := b3.isLt
    rw [show btoaChunks (b1 :: b2 :: b3 :: rest) =
          encSextet (b1.val / 4) :: encSextet (b1.val % 4 * 16 + b2.val / 16) ::
          encSextet (b2.val % 16 * 4 + b3.val / 64) :: encSextet (b3.val % 64) ::
          btoaChunks rest from rfl]
    rw [stripPad_append4 _ _ _ _ _ (encSextet_ne_pad (b3.val % 64) (by omega))]
    rw [stripPad_btoaChunks rest]
    rfl

theorem atob_btoa (bs : List (Fin 256)) : atob (btoa bs) = some bs := by
  have ht : (btoa bs).toList = btoaChunks bs := rfl
  rw [atob, ht, stripPad_btoaChunks, atobDecode_btoaCore]

mutual

theorem plainValueRT : ∀ (v : JSValue), isJsonPlain v = true →
    (jsonOfValue v).map valueOfJson = some v
  | .vnull, _ => rfl
  | .vstr _, _ => rfl
  | .vnum (.finite _), _ => rfl
  | .vnum .nan, h => by simp [isJsonPlain] at h
  | .vnum .inf, h => by simp [isJsonPlain] at h
  | .vnum .negInf, h => by simp [isJsonPlain] at h
  | .vbool _, _ => rfl
  | .varr xs, h => by
    have hl : isJsonPlainList xs = true := by simpa [isJsonPlain] using h
    simp only [jsonOfValue, Option.map_some', valueOfJson, Option.some.injEq,
      JSValue.varr.injEq]
    exact plainListRT xs hl
  | .vobj fs, h => by
    have hl : isJsonPlainFields fs = true := by simpa [isJsonPlain] using h
    simp only [jsonOfValue, Option.map_some', valueOfJson, Option.some.injEq,
      JSValue.vobj.injEq]
    exact plainFieldsRT fs hl
  | .vundefined, h => by simp [isJsonPlain] at h
  | .vdate _, h => by simp [isJsonPlain] at h
  | .vinvalidDate, h => by simp [isJsonPlain] at h
  | .vregexp _ _, h => by simp [isJsonPlain] at h
  | .vblob _ _, h => by simp [isJsonPlain] at h
  | .vfile _ _ _ _, h => by simp [isJsonPlain] at h
  | .varraybuffer _, h => by simp [isJsonPlain] at h
  | .vtypedarray _ _ _ _, h => by simp [isJsonPlain] at h
  | .vfunction, h => by simp [isJsonPlain] at h
  | .vsymbol, h => by simp [isJsonPlain] at h
  | .vinstance _, h => by simp [isJsonPlain] at h

theorem plainListRT : ∀ (xs : List JSValue), isJsonPlainList xs = true →
    valueOfJsonList (jsonOfList xs) = xs
  | [], _ => rfl
  | x :: xs, h => by
    have hx : isJsonPlain x = true ∧ isJsonPlainList xs = true := by
      simpa [isJsonPlainList, Bool.and_eq_true] using h
    obtain ⟨jx, hjx, hvx⟩ := Option.map_eq_some'.mp (plainValueRT x hx.1)
    simp only [jsonOfList, hjx, Option.getD_some, valueOfJsonList, hvx,
      plainListRT xs hx.2]

theorem plainFieldsRT : ∀ (fs : List (String × JSValue)), isJsonPlainFields fs = true →
    valueOfJsonFields (jsonOfFields fs) = fs
  | [], _ => rfl
  | (k, x) :: fs, h => by
    have hx : isJsonPlain x = true ∧ isJsonPlainFields fs = true := by
      simpa [isJsonPlainFields, Bool.and_eq_true] using h
    obtain ⟨jx, hjx, hvx⟩ := Option.map_eq_some'.mp (plainValueRT x hx.1)
    simp only [jsonOfFields, hjx, valueOfJsonFields, hvx, plainFieldsRT fs hx.2]

end

theorem isVersion1_eq_false {w : Json} (h : w ≠ .jnum 1) : isVersion1 (some w) = false := by
  cases w with
  | jnum n =>
    simp only [isVersion1, decide_eq_false_iff_not]
    intro hn
    exact h (by rw [hn])
  | _ => simp [isVersion1]

theorem deserialize_arraybuffer_envelope (bytes : List (Fin 256)) :
    Serializer.deserialize (some (envelopeJson (Serializer.serializeArrayBuffer bytes))) =
      .ok (.varraybuffer bytes) := by
  simp only [Serializer.serializeArrayBuffer, envelopeJson, jsonOfValue, jsonOfFields,
    List.cons_append, List.nil_append,
    Serializer.deserialize, Serializer.extractValue, getPropD, lookupLast,
    isVersion1, tagStringOf, jsDisplay, jsonToDisplay, dataAsValue,
    Serializer.arrayBufferToBase64, atob_btoa, metaTypeOf, metaField,
    String.reduceEq, Int.reduceEq, reduceIte, Option.some.injEq, decide_True,
    false_or, or_false, or_true, true_or, if_true, if_false]

mutual

theorem plain_serializable : ∀ v : JSValue, isJsonPlain v = true → isSerializable v = true
  | .vnull, _ => by simp [isSerializable]
  | .vstr _, _ => by simp [isSerializable]
  | .vnum _, _ => by simp [isSerializable]
  | .vbool _, _ => by simp [isSerializable]
  | .varr xs, h => by
    have hl : isJsonPlainList xs = true := by simpa [isJsonPlain] using h
    simpa [isSerializable] using plain_serializableList xs hl
  | .vobj fs, h => by
    have hl : isJsonPlainFields fs = true := by simpa [isJsonPlain] using h
    simpa [isSerializable] using plain_serializableFields fs hl
  | .vundefined, h => by simp [isJsonPlain] at h
  | .vdate _, h => by simp [isJsonPlain] at h
  | .vinvalidDate, h => by simp [isJsonPlain] at h
  | .vregexp _ _, h => by simp [isJsonPlain] at h
  | .vblob _ _, h => by simp [isJsonPlain] at h
  | .vfile _ _ _ _, h => by simp [isJsonPlain] at h
  | .varraybuffer _, h => by simp [isJsonPlain] at h
  | .vtypedarray _ _ _ _, h => by simp [isJsonPlain] at h
  | .vfunction, h => by simp [isJsonPlain] at h
  | .vsymbol, h => by simp [isJsonPlain] at h
  | .vinstance _, h => by simp [isJsonPlain] at h

theorem plain_serializableList : ∀ xs : List JSValue, isJsonPlainList xs = true →
    isSerializableList xs = true
  | [], _ => by simp [isSerializableList]
  | x :: xs, h => by
    have hx : isJsonPlain x = true ∧ isJsonPlainList xs = true := by
      simpa [isJsonPlainList, Bool.and_eq_true] using h
    simp [isSerializableList, plain_serializable x hx.1, plain_serializableList xs hx.2]

theorem plain_serializableFields : ∀ fs : List (String × JSValue), isJsonPlainFields fs = true →
    isSerializableFields fs = true
  | [], _ => by simp [isSerializableFields]
  | (_, x) :: fs, h => by
    have hx : isJsonPlain x = true ∧ isJsonPlainFields fs = true := by
      simpa [isJsonPlainFields, Bool.and_eq_true] using h
    simp [isSerializableFields, plain_serializable x hx.1, plain_serializableFields fs hx.2]

end

/-- C2: base64 conversion round-trips every byte sequence exactly (in
particular sequences containing each byte value 0–255 and embedded 0x00),
and the text produced is a deterministic function of the byte sequence. -/
theorem c2_base64_round_trip :
    (∀ bytes : List (Fin 256),
      Serializer.base64ToArrayBuffer (Serializer.arrayBufferToBase64 bytes) = some bytes) ∧
    (∀ bytes bytes' : List (Fin 256), bytes = bytes' →
      Serializer.arrayBufferToBase64 bytes = Serializer.arrayBufferToBase64 bytes') :=
  ⟨fun bytes => atob_btoa bytes, fun _ _ h => by rw [h]⟩

/-- The byte sequence holding every value 0–255 in order. -/
def allByteValues : List (Fin 256) := List.finRange 256

/-- C2 (witness): the round trip at the full 0–255 byte range. -/
theorem c2_base64_round_trip_witness :
    Serializer.base64ToArrayBuffer (Serializer.arrayBufferToBase64 allByteValues) =
        some allByteValues ∧
    Serializer.arrayBufferToBase64 allByteValues = Serializer.arrayBufferToBase64 allByteValues :=
  ⟨c2_base64_round_trip.1 allByteValues,
   c2_base64_round_trip.2 allByteValues allByteValues rfl⟩

/-- C6: encoding a binary view slices exactly the view's own byte range and
produces the `arraybuffer` envelope of that slice (so the tag is
`arraybuffer` and the element width and view type are not preserved), and
decoding yields a raw byte buffer equal to the view's underlying bytes. -/
theorem c6_typed_view_slicing (buffer : List (Fin 256)) (byteOffset byteLength : Nat)
    (ctorName : String) :
    Serializer.serialize (.vtypedarray buffer byteOffset byteLength ctorName) =
      .ok (envelopeJson (Serializer.serializeArrayBuffer
        ((buffer.drop byteOffset).take byteLength))) ∧
    (Serializer.serializeTypedArray buffer byteOffset byteLength).__t = "arraybuffer" ∧
    roundTrip (.vtypedarray buffer byteOffset byteLength ctorName) =
      some (.varraybuffer ((buffer.drop byteOffset).take byteLength)) := by
  refine ⟨?_, rfl, ?_⟩
  · simp only [Serializer.serialize, isSerializable, if_true, Serializer.createEnvelope,
      Serializer.serializeTypedArray, Except.map]
  · simp only [roundTrip, Serializer.serialize, isSerializable, if_true,
      Serializer.createEnvelope, Serializer.serializeTypedArray, Except.map,
      deserialize_arraybuffer_envelope]

/-- C3: decode returns `null` (never throws) when the input text fails to
parse, and any `StorageError` raised during validation or tag dispatch
propagates unchanged to the caller rather than being swallowed into
`null`. -/
theorem c3_parse_failure_policy :
    Serializer.deserialize none = .ok .vnull ∧
    ∀ (j : Json) (e : StorageError),
      Serializer.extractValue j = .error (.storage e) →
      Serializer.deserialize (some j) = .error e := by
  refine ⟨rfl, fun j e h => ?_⟩
  simp only [Serializer.deserialize, h]

/-- C3 (witness): a parsed envelope without a version field makes
`extractValue` throw a `CORRUPTION` `StorageError`, and `deserialize`
propagates exactly that error. -/
theorem c3_parse_failure_policy_witness :
    Serializer.extractValue (.jobj [("__t", .jstr "x")]) =
      .error (.storage { code := .CORRUPTION,
                         message := "Unsupported envelope format version: " ++ "undefined" }) ∧
    Serializer.deserialize (some (.jobj [("__t", .jstr "x")])) =
      .error { code := .CORRUPTION,
               message := "Unsupported envelope format version: " ++ "undefined" } := by
  have h : Serializer.extractValue (.jobj [("__t", .jstr "x")]) =
      .error (.storage { code := .CORRUPTION,
                         message := "Unsupported envelope format version: " ++ "undefined" }) := by rfl
  exact ⟨h, c3_parse_failure_policy.2 _ _ h⟩

/-- C4: a successfully parsed envelope whose version field differs from `1`
makes decode throw a `CORRUPTION` `StorageError` (not return null), and a
version-1 envelope with a tag outside the closed vocabulary makes decode
throw a `CORRUPTION` `StorageError` whose message names the unrecognized
tag. -/
theorem c4_corruption_validation :
    (∀ (fs : List (String × Json)) (w : Json),
      lookupLast fs "__v" = some w → w ≠ .jnum 1 →
      Serializer.deserialize (some (.jobj fs)) =
        .error { code := .CORRUPTION,
                 message := "Unsupported envelope format version: " ++ jsonToDisplay w }) ∧
    (∀ (fs : List (String × Json)) (tg : String),
      lookupLast fs "__v" = some (.jnum 1) →
      lookupLast fs "__t" = some (.jstr tg) → tg ∉ tagList →
      Serializer.deserialize (some (.jobj fs)) =
        .error { code := .CORRUPTION,
                 message := "Unknown type in envelope: " ++ tg }) := by
  constructor
  · intro fs w hw hne
    simp only [Serializer.deserialize, Serializer.extractValue, getPropD, hw,
      isVersion1_eq_false hne, jsDisplay, Bool.false_eq_true, if_false]
  · intro fs tg hv ht htg
    simp only [tagList, List.mem_cons, List.not_mem_nil, or_false, not_or] at htg
    obtain ⟨h1, h2, h3, h4, h5, h6, h7, h8, h9, h10, h11, h12⟩ := htg
    simp only [Serializer.deserialize, Serializer.extractValue, getPropD, hv, ht,
      isVersion1, tagStringOf, jsDisplay, jsonToDisplay, Option.some.injEq,
      h1, h2, h3, h4, h5, h6, h7, h8, h9, h10, h11, h12,
      Int.reduceEq, decide_True, if_true, if_false, false_or, or_false, or_self]

/-- C4 (witness): a version-2 envelope and a version-1 envelope tagged
`"bogus"` are both rejected with `CORRUPTION`. -/
theorem c4_corruption_validation_witness :
    Serializer.deserialize (some (.jobj [("__v", .jnum 2)])) =
      .error { code := .CORRUPTION,
               message := "Unsupported envelope format version: " ++ jsonToDisplay (.jnum 2) } ∧
    Serializer.deserialize (some (.jobj [("__v", .jnum 1), ("__t", .jstr "bogus")])) =
      .error { code := .CORRUPTION, message := "Unknown type in envelope: " ++ "bogus" } :=
  ⟨c4_corruption_validation.1 [("__v", .jnum 2)] (.jnum 2) rfl (by simp),
   c4_corruption_validation.2 [("__v", .jnum 1), ("__t", .jstr "bogus")] "bogus"
     rfl rfl (by simp [tagList])⟩

/-- C10: well-formed JSON text that is not an envelope object: a non-null
JSON primitive (number, string, or boolean) makes decode throw `CORRUPTION`
(the version check sees a missing version field), while the exact text
`"null"` decodes to `null` — the property access on the parsed `null` raises
a native `TypeError` that the parse-failure path swallows. -/
theorem c10_nonenvelope_primitives :
    (∀ n : Int, Serializer.deserialize (some (.jnum n)) =
      .error { code := .CORRUPTION,
               message := "Unsupported envelope format version: " ++ "undefined" }) ∧
    (∀ s : String, Serializer.deserialize (some (.jstr s)) =
      .error { code := .CORRUPTION,
               message := "Unsupported envelope format version: " ++ "undefined" }) ∧
    (∀ b : Bool, Serializer.deserialize (some (.jbool b)) =
      .error { code := .CORRUPTION,
               message := "Unsupported envelope format version: " ++ "undefined" }) ∧
    Serializer.deserialize (some .jnull) = .ok .vnull :=
  ⟨fun _ => rfl, fun _ => rfl, fun _ => rfl, rfl⟩

/-- C5: every value outside the supported type set — functions, symbols and
`Map`/`Set` instances in particular — makes encode reject with an
`INVALID_VALUE` `StorageError` whose message includes the classifier's type
name for the value. -/
theorem c5_unsupported_invalid_value :
    (∀ v : JSValue, isSerializable v = false →
      Serializer.serialize v = .error (.storage (StorageErrors.invalidValue (getTypeName v))) ∧
      (StorageErrors.invalidValue (getTypeName v)).code = .INVALID_VALUE ∧
      ∃ pre post,
        (StorageErrors.invalidValue (getTypeName v)).message = pre ++ getTypeName v ++ post) ∧
    isSerializable .vfunction = false ∧
    isSerializable .vsymbol = false ∧
    isSerializable (.vinstance "Map") = false ∧
    isSerializable (.vinstance "Set") = false := by
  refine ⟨fun v h => ⟨?_, rfl, ?_⟩, ?_, ?_, ?_, ?_⟩
  · simp only [Serializer.serialize, h, Bool.false_eq_true, if_false]
  · exact ⟨"Cannot store value of type \"",
      "\". Supported types: primitives, objects, arrays, Date, RegExp, Blob, File, ArrayBuffer, TypedArrays",
      rfl⟩
  all_goals simp [isSerializable]

/-- C5 (witness): `encode` of a function rejects with the `INVALID_VALUE`
error naming `"function"`. -/
theorem c5_unsupported_invalid_value_witness :
    isSerializable .vfunction = false ∧
    Serializer.serialize .vfunction =
      .error (.storage (StorageErrors.invalidValue (getTypeName .vfunction))) :=
  ⟨c5_unsupported_invalid_value.2.1,
   (c5_unsupported_invalid_value.1 .vfunction c5_unsupported_invalid_value.2.1).1⟩

/-- C7: `validateKey` succeeds exactly on strings of length 1..1000 (so a
1000-character key is accepted); a non-string key fails with a message naming
its runtime type, an empty key fails with the "empty" diagnostic, an
over-long key fails with the "too long" diagnostic, and every such failure
carries code `INVALID_VALUE`. -/
theorem c7_validateKey_spec : ∀ k : JSValue,
    (validateKey k = .ok () ↔ ∃ s, k = .vstr s ∧ 1 ≤ s.length ∧ s.length ≤ 1000) ∧
    (∀ s, k = .vstr s → s.length = 0 →
      validateKey k = .error (StorageErrors.invalidKey "Key cannot be empty")) ∧
    (∀ s, k = .vstr s → s.length > 1000 →
      validateKey k = .error (StorageErrors.invalidKey
        ("Key too long (" ++ toString s.length ++ " characters). Maximum is 1000 characters"))) ∧
    ((∀ s, k ≠ .vstr s) →
      validateKey k = .error (StorageErrors.invalidKey
        ("Key must be a string, got " ++ typeofName k))) ∧
    (∀ reason, (StorageErrors.invalidKey reason).code = .INVALID_VALUE) := by
  intro k
  refine ⟨⟨?_, ?_⟩, ?_, ?_, ?_, fun _ => rfl⟩
  · intro hok
    cases k with
    | vstr s =>
      simp only [validateKey] at hok
      by_cases h0 : s.length = 0
      · rw [if_pos h0] at hok
        exact absurd hok (by simp)
      · rw [if_neg h0] at hok
        by_cases h1 : s.length > 1000
        · rw [if_pos h1] at hok
          exact absurd hok (by simp)
        · exact ⟨s, rfl, by omega, by omega⟩
    | _ => simp [validateKey] at hok
  · rintro ⟨s, rfl, h1, h2⟩
    simp only [validateKey]
    rw [if_neg (by omega), if_neg (by omega)]
  · rintro s rfl h0
    simp only [validateKey]
    rw [if_pos h0]
  · rintro s rfl h1
    simp only [validateKey]
    rw [if_neg (by omega), if_pos h1]
  · intro hns
    cases k with
    | vstr s => exact absurd rfl (hns s)
    | _ => rfl

/-- C7 (witness): the four boundary behaviours at concrete keys — empty key,
1000-character key, 1001-character key, numeric key. -/
theorem c7_validateKey_spec_witness :
    validateKey (.vstr "") = .error (StorageErrors.invalidKey "Key cannot be empty") ∧
    validateKey (.vstr (String.mk (List.replicate 1000 'x'))) = .ok () ∧
    validateKey (.vstr (String.mk (List.replicate 1001 'x'))) =
      .error (StorageErrors.invalidKey
        ("Key too long (" ++ toString (String.mk (List.replicate 1001 'x')).length ++
         " characters). Maximum is 1000 characters")) ∧
    validateKey (.vnum (.finite 123)) =
      .error (StorageErrors.invalidKey
        ("Key must be a string, got " ++ typeofName (.vnum (.finite 123)))) := by
  refine ⟨(c7_validateKey_spec (.vstr "")).2.1 "" rfl rfl, ?_, ?_, ?_⟩
  · have hlen : (String.mk (List.replicate 1000 'x')).length = 1000 := by
      show (List.replicate 1000 'x').length = 1000
      rw [List.length_replicate]
    exact (c7_validateKey_spec _).1.mpr
      ⟨String.mk (List.replicate 1000 'x'), rfl, by omega, by omega⟩
  · have hlen : (String.mk (List.replicate 1001 'x')).length = 1001 := by
      show (List.replicate 1001 'x').length = 1001
      rw [List.length_replicate]
    exact (c7_validateKey_spec _).2.2.1 (String.mk (List.replicate 1001 'x')) rfl (by omega)
  · exact (c7_validateKey_spec (.vnum (.finite 123))).2.2.2.1 (by intro s hcon; simp at hcon)

/-- C8: `fromNativeError` is total — a quota signal maps to `QUOTA_EXCEEDED`,
a timeout signal to `TIMEOUT`, a version-conflict signal to
`VERSION_MISMATCH`, and every other failure identifier to `OPERATION_FAILED`,
in that case preserving the original message and a reference to the original
failure. -/
theorem c8_fromNativeError_total : ∀ (e : NativeError) (ctx : Option ErrCtx),
    (e.name = "QuotaExceededError" →
      (StorageError.fromNativeError e ctx).code = .QUOTA_EXCEEDED) ∧
    (e.name = "TimeoutError" → (StorageError.fromNativeError e ctx).code = .TIMEOUT) ∧
    (e.name = "VersionError" →
      (StorageError.fromNativeError e ctx).code = .VERSION_MISMATCH) ∧
    (e.name ≠ "QuotaExceededError" → e.name ≠ "TimeoutError" → e.name ≠ "VersionError" →
      (StorageError.fromNativeError e ctx).code = .OPERATION_FAILED ∧
      (StorageError.fromNativeError e ctx).message = "Storage operation failed: " ++ e.message ∧
      (StorageError.fromNativeError e ctx).originalError = some e) := by
  intro e ctx
  refine ⟨fun h => ?_, fun h => ?_, fun h => ?_, fun h1 h2 h3 => ?_⟩
  · simp [StorageError.fromNativeError, h]
  · simp [StorageError.fromNativeError, h]
  · simp [StorageError.fromNativeError, h]
  · unfold StorageError.fromNativeError
    rw [if_neg h1, if_neg h2, if_neg h3]
    by_cases h4 : e.name = "InvalidStateError" ∨ e.name = "UnknownError" ∨
        e.name = "NotFoundError"
    · rw [if_pos h4]
      exact ⟨rfl, rfl, rfl⟩
    · rw [if_neg h4]
      exact ⟨rfl, rfl, rfl⟩

/-- C8 (witness): an unrecognized failure name maps to `OPERATION_FAILED`,
keeping the original message and failure reference. -/
theorem c8_fromNativeError_total_witness :
    (StorageError.fromNativeError ⟨"SomeOtherError", "boom"⟩ none).code = .OPERATION_FAILED ∧
    (StorageError.fromNativeError ⟨"SomeOtherError", "boom"⟩ none).message =
      "Storage operation failed: " ++ "boom" ∧
    (StorageError.fromNativeError ⟨"SomeOtherError", "boom"⟩ none).originalError =
      some ⟨"SomeOtherError", "boom"⟩ :=
  (c8_fromNativeError_total ⟨"SomeOtherError", "boom"⟩ none).2.2.2
    (by decide) (by decide) (by decide)

/-- C9: the classifier's acceptance implies the codec cannot fail with
`INVALID_VALUE`: for every serializable value, neither `serialize` nor the
envelope-creation dispatch produces an `INVALID_VALUE` error — the final
unsupported-type branch is unreachable under that precondition. -/
theorem c9_classifier_gates_codec : ∀ v : JSValue, isSerializable v = true →
    failsInvalidValue (Serializer.serialize v) = false ∧
    failsInvalidValue (Serializer.createEnvelope v) = false := by
  intro v h
  cases v with
  | vfunction => simp [isSerializable] at h
  | vsymbol => simp [isSerializable] at h
  | vinstance c => simp [isSerializable] at h
  | vblob bytes type =>
    refine ⟨?_, ?_⟩ <;>
    · by_cases hbe : bytes.isEmpty <;>
        simp [Serializer.serialize, h, Serializer.createEnvelope, Serializer.serializeBlob,
          Serializer.blobToBase64, hbe, Except.map, failsInvalidValue]
  | vfile bytes name type lastModified =>
    refine ⟨?_, ?_⟩ <;>
    · by_cases hbe : bytes.isEmpty <;>
        simp [Serializer.serialize, h, Serializer.createEnvelope, Serializer.serializeFile,
          Serializer.blobToBase64, hbe, Except.map, failsInvalidValue]
  | _ =>
    refine ⟨?_, ?_⟩ <;>
      simp [Serializer.serialize, h, Serializer.createEnvelope, Except.map, failsInvalidValue,
        Serializer.serializeArrayBuffer, Serializer.serializeTypedArray]

/-- C9 (witness): the gate at a concrete serializable value. -/
theorem c9_classifier_gates_codec_witness :
    isSerializable .vnull = true ∧
    failsInvalidValue (Serializer.serialize .vnull) = false :=
  ⟨by simp [isSerializable],
   (c9_classifier_gates_codec .vnull (by simp [isSerializable])).1⟩
